import Mathlib

/-!
Shallow embedding of `src/server/hdf5db.py` (class `Hdf5db`), the UUID index
manager of the h5serv repository, together with theorems settling the frozen
claims about it.

The hierarchical storage engine (h5py) is modelled at its interface boundary:
objects are identified by an `ObjId`, the engine supplies the kind, physical
address, absolute name, attribute count and child-link list of each object, a
path-resolution map and the `visititems` traversal order.  Python exceptions
are modelled by the `Except Err` monad; methods that mutate the manager take
and return a `DbState`.  The manager's `httpStatus`/`httpMessage` pair and the
two storage modes (writable container with an embedded `__db__` index root,
read-only container with a shadow index file) are represented explicitly.
-/

set_option autoImplicit false

universe u v

/-- Python exception kinds raised by the embedded code paths. -/
inductive Err : Type
  | keyError
  | valueError
  | nameError
  | exception
deriving DecidableEq, Repr

/-- Kind of a primary HDF object, abstracting `obj.__class__.__name__`. -/
inductive ObjKind : Type
  | group
  | dataset
  | datatype
  | other
deriving DecidableEq, Repr

/-- The class-name string of an object kind (`obj.__class__.__name__`). -/
def ObjKind.className : ObjKind → String
  | .group => "Group"
  | .dataset => "Dataset"
  | .datatype => "Datatype"
  | .other => "Other"

/-- Identity of a live object handle in the underlying engine. -/
abbrev ObjId := Nat

/-- A link entry of a group, as classified by `parent.get(k, None, False, True)`
(one of `HardLink`, `SoftLink`, `ExternalLink`, or anything else). -/
inductive Link : Type
  | hard (target : ObjId)
  | soft (path : String)
  | ext (path : String) (filename : String)
  | other
deriving DecidableEq, Repr

/-- Lookup in an association list (string-keyed attribute maps and link
collections of h5py groups). -/
def getA {α : Type u} [DecidableEq α] {β : Type v} : List (α × β) → α → Option β
  | [], _ => none
  | (k, v) :: rest, key => if k = key then some v else getA rest key

/-- Overwriting insertion into an association list (`attrs[k] = v`). -/
def setA {α : Type u} [DecidableEq α] {β : Type v} : List (α × β) → α → β → List (α × β)
  | [], key, val => [(key, val)]
  | (k, v) :: rest, key, val =>
      if k = key then (key, val) :: rest else (k, v) :: setA rest key val

/-- Deletion from an association list (`del attrs[k]`, `del grp[k]`). -/
def delA {α : Type u} [DecidableEq α] {β : Type v} : List (α × β) → α → List (α × β)
  | [], _ => []
  | (k, v) :: rest, key => if k = key then delA rest key else (k, v) :: delA rest key

/-- The source container as seen through the engine interface: object kinds,
physical addresses, absolute names, attribute counts, per-group child links in
native iteration order, path resolution, and the recursive traversal order
reported by `visititems`. -/
structure HFile where
  rootId : ObjId
  kindOf : ObjId → ObjKind
  addrOf : ObjId → Nat
  attrCount : ObjId → Nat
  nameOf : ObjId → String
  children : ObjId → List (String × Link)
  byPath : String → Option ObjId
  visitOrder : List (String × ObjId)

/-- Contents of the index root (`__db__` group in the writable case, the root
of the shadow `.db` file in the read-only case): presence flags for the index
collections, the `rootUUID` attribute, the three UUID-to-object link
collections, and the `{addr}` / `{paths}` attribute maps. -/
structure DbRoot where
  hasGroups : Bool := false
  hasDatasets : Bool := false
  hasDatatypes : Bool := false
  hasAddr : Bool := false
  hasPaths : Bool := false
  rootUUIDAttr : Option String := none
  groupsLinks : List (String × ObjId) := []
  datasetsLinks : List (String × ObjId) := []
  datatypesLinks : List (String × ObjId) := []
  addrAttrs : List (String × String) := []
  pathAttrs : List (String × String) := []

/-- The full state of one open `Hdf5db` manager: mode flag, status pair, the
source container, whether `__db__` exists in it, the index-root contents, and
the `uuid.uuid1()` generator modelled as an injective supply with a counter. -/
structure DbState where
  readonly : Bool
  httpStatus : Nat := 200
  httpMessage : Option String := none
  file : HFile
  dbRootExists : Bool := false
  db : DbRoot := {}
  uuidGen : Nat → String
  uuidCtr : Nat := 0

/-- The check `len(path) >= 6 and path[:6] == '__db__'` used to exclude the
index subtree. -/
def isDbPath (p : String) : Bool := decide (6 ≤ p.length ∧ p.take 6 = "__db__")

/-- Lines 129-130 of `initFile`: `self.httpStatus = 200; self.httpMessage = None`. -/
def statusReset (s : DbState) : DbState := {s with httpStatus := 200, httpMessage := none}

/-- Whether the collection group that `visit` would insert into exists
(`self.dbGrp["{groups}"]` etc. raise `KeyError` when absent). -/
def colExists (db : DbRoot) : ObjKind → Bool
  | .group => db.hasGroups
  | .dataset => db.hasDatasets
  | .datatype => db.hasDatatypes
  | .other => false

/-- `col[id] = obj`: create a hard link named by the UUID in the matching
index collection (h5py raises when the name already exists). -/
def colInsert (db : DbRoot) (k : ObjKind) (id : String) (obj : ObjId) : Except Err DbRoot :=
  match k with
  | .group =>
      if (getA db.groupsLinks id).isSome then .error .valueError
      else .ok {db with groupsLinks := db.groupsLinks ++ [(id, obj)]}
  | .dataset =>
      if (getA db.datasetsLinks id).isSome then .error .valueError
      else .ok {db with datasetsLinks := db.datasetsLinks ++ [(id, obj)]}
  | .datatype =>
      if (getA db.datatypesLinks id).isSome then .error .valueError
      else .ok {db with datatypesLinks := db.datatypesLinks ++ [(id, obj)]}
  | .other => .error .keyError

/-- `Hdf5db.visit` (lines 155-187): the traversal callback.  Skips anything
under `__db__`; classifies the object, flagging status 500 for an unsupported
kind; generates a fresh UUID; inserts a collection link (writable) or a
`UUID -> absolute path` attribute (read-only, raising when `{paths}` is
missing); and records `str(addr) -> UUID` in the `{addr}` attribute map. -/
def visit (s : DbState) (path : String) (obj : ObjId) : Except Err DbState :=
  if isDbPath path then .ok s
  else if s.file.kindOf obj = .other then
    .ok {s with httpStatus := 500, httpMessage := some "Unexpected error"}
  else if colExists s.db (s.file.kindOf obj) = false then .error .keyError
  else if s.db.hasAddr = false then .error .keyError
  else if s.readonly = false then
    match colInsert s.db (s.file.kindOf obj) (s.uuidGen s.uuidCtr) obj with
    | .error e => .error e
    | .ok db₁ =>
        .ok { s with
              uuidCtr := s.uuidCtr + 1
              db := { db₁ with
                      addrAttrs :=
                        setA db₁.addrAttrs (toString (s.file.addrOf obj))
                          (s.uuidGen s.uuidCtr) } }
  else if s.db.hasPaths = false then .error .exception
  else
    .ok { s with
          uuidCtr := s.uuidCtr + 1
          db := { s.db with
                  pathAttrs := setA s.db.pathAttrs (s.uuidGen s.uuidCtr) (s.file.nameOf obj)
                  addrAttrs :=
                    setA s.db.addrAttrs (toString (s.file.addrOf obj)) (s.uuidGen s.uuidCtr) } }

/-- `self.f.visititems(visitObj)`: run the `visit` callback over the engine's
traversal order, propagating any raised exception. -/
def visititems : DbState → List (String × ObjId) → Except Err DbState
  | s, [] => .ok s
  | s, (p, o) :: rest =>
    match visit s p o with
    | .error e => .error e
    | .ok s₁ => visititems s₁ rest

/-- The already-initialized check of `initFile` (lines 131-141): in read-only
mode, `"{groups}" in self.dbf`; in writable mode, `"__db__" in self.f`. -/
def initGuard (s : DbState) : Bool :=
  if s.readonly then s.db.hasGroups else s.dbRootExists

/-- Lines 144-153 of `initFile`: store a fresh `rootUUID` attribute, create the
`{groups}`, `{datasets}`, `{datatypes}` and `{addr}` collections (plus
`{paths}` in read-only mode; `create_group` raises when the name exists), then
traverse the whole container.  The existence checks of the `create_group`
calls are gathered ahead of the attribute write; this is observationally equal
because a raised exception discards the partial state in the `Except` model
and the checks read only the presence flags, which the attribute write leaves
untouched. -/
def initFileBody (s : DbState) : Except Err DbState :=
  if s.db.hasGroups then .error .valueError
  else if s.db.hasDatasets then .error .valueError
  else if s.db.hasDatatypes then .error .valueError
  else if s.db.hasAddr then .error .valueError
  else if s.readonly then
    if s.db.hasPaths then .error .valueError
    else
      visititems
        { s with
          uuidCtr := s.uuidCtr + 1
          db := { s.db with
                  rootUUIDAttr := some (s.uuidGen s.uuidCtr)
                  hasGroups := true
                  hasDatasets := true
                  hasDatatypes := true
                  hasAddr := true
                  hasPaths := true } }
        s.file.visitOrder
  else
    visititems
      { s with
        uuidCtr := s.uuidCtr + 1
        db := { s.db with
                rootUUIDAttr := some (s.uuidGen s.uuidCtr)
                hasGroups := true
                hasDatasets := true
                hasDatatypes := true
                hasAddr := true } }
      s.file.visitOrder

/-- `Hdf5db.initFile` (lines 127-153): reset the status pair; return
immediately when the guard of `initGuard` holds; otherwise (writable) create
the empty `__db__` group, and run the initialization body. -/
def initFile (s0 : DbState) : Except Err DbState :=
  let s := statusReset s0
  if s.readonly then
    if s.db.hasGroups then .ok s else initFileBody s
  else
    if s.dbRootExists then .ok s
    else initFileBody {s with dbRootExists := true, db := {}}

/-- `Hdf5db.getUUIDByAddress` (lines 189-197): raise when `{addr}` is missing,
otherwise look `str(addr)` up in its attribute map (the method never mutates
the manager, so it is modelled as a pure reader). -/
def getUUIDByAddress (s : DbState) (addr : Nat) : Except Err (Option String) :=
  if s.db.hasAddr = false then .error .exception
  else .ok (getA s.db.addrAttrs (toString addr))

/-- `Hdf5db.getUUIDByPath` (lines 199-211): initialize, reject paths under the
index root, answer `/` from the `rootUUID` attribute, otherwise resolve the
path through the engine (`self.f[path]` raises `KeyError` when it does not
resolve) and look its address up. -/
def getUUIDByPath (s0 : DbState) (path : String) : Except Err (Option String × DbState) :=
  match initFile s0 with
  | .error e => .error e
  | .ok s =>
    if isDbPath path then .error .exception
    else if path = "/" then
      match s.db.rootUUIDAttr with
      | none => .error .keyError
      | some r => .ok (some r, s)
    else
      match s.file.byPath path with
      | none => .error .keyError
      | some obj =>
        match getUUIDByAddress s (s.file.addrOf obj) with
        | .error e => .error e
        | .ok u => .ok (u, s)

/-- `Hdf5db.getGroupByUuid` (lines 243-268): the root-identity attribute wins;
otherwise consult `{groups}` (writable) or `{paths}` with a kind check
(read-only); on a miss set status 404 / "Resource not found". -/
def getGroupByUuid (s0 : DbState) (objUuid : String) : Except Err (Option ObjId × DbState) :=
  match initFile s0 with
  | .error e => .error e
  | .ok s =>
    match s.db.rootUUIDAttr with
    | none => .error .keyError
    | some rid =>
      let res : Except Err (Option ObjId) :=
        if objUuid = rid then .ok (some s.file.rootId)
        else if s.readonly = false then
          if s.db.hasGroups = false then .error .keyError
          else .ok (getA s.db.groupsLinks objUuid)
        else
          if s.db.hasPaths = false then .error .exception
          else
            match getA s.db.pathAttrs objUuid with
            | none => .ok none
            | some p =>
              match s.file.byPath p with
              | none => .error .keyError
              | some o => .ok (if s.file.kindOf o = .group then some o else none)
      match res with
      | .error e => .error e
      | .ok none =>
          .ok (none, {s with httpStatus := 404, httpMessage := some "Resource not found"})
      | .ok (some o) => .ok (some o, s)

/-- `Hdf5db.getDatasetByUuid` (lines 219-241): consult `{datasets}` (writable)
or `{paths}` with a kind check (read-only); on a miss set status 404. -/
def getDatasetByUuid (s0 : DbState) (objUuid : String) : Except Err (Option ObjId × DbState) :=
  match initFile s0 with
  | .error e => .error e
  | .ok s =>
    let res : Except Err (Option ObjId) :=
      if s.readonly = false then
        if s.db.hasDatasets = false then .error .keyError
        else .ok (getA s.db.datasetsLinks objUuid)
      else
        if s.db.hasPaths = false then .error .exception
        else
          match getA s.db.pathAttrs objUuid with
          | none => .ok none
          | some p =>
            match s.file.byPath p with
            | none => .error .keyError
            | some o => .ok (if s.file.kindOf o = .dataset then some o else none)
    match res with
    | .error e => .error e
    | .ok none =>
        .ok (none, {s with httpStatus := 404, httpMessage := some "Resource not found"})
    | .ok (some o) => .ok (some o, s)

/-- One item descriptor produced by `getItems`; an `Option`-valued field is
`none` when the corresponding dictionary key is never assigned.  The `uuid`
field stores the (possibly `None`) result of `getUUIDByAddress`. -/
structure Item where
  name : String
  cls : Option String := none
  path : Option String := none
  filename : Option String := none
  uuid : Option (Option String) := none
  attributeCount : Option Nat := none
deriving DecidableEq, Repr

/-- Python truthiness of the `classFilter` argument (`if classFilter:`): an
absent filter and the empty string are both falsy. -/
def truthy : Option String → Bool
  | none => false
  | some s => decide (s ≠ "")

/-- The `for k in parent` loop of `Hdf5db.getItems` (lines 288-332), carrying
the loop state: remaining children, `gotMarker`, `count`, the `objClass`
variable (unbound before the first hard link, hence `Option`), and the
accumulated items.  The `ExternalLink` branch evaluates the unbound name
`typeFilter` and so raises `NameError`; the unexpected-class branch evaluates
`objClass` inside its log call, raising `NameError` when it is still unbound,
and otherwise skips the entry. -/
def getItemsLoop (s : DbState) (classFilter marker : Option String) (limit : Int) :
    List (String × Link) → Bool → Int → Option String → List Item → Except Err (List Item)
  | [], _, _, _, items => .ok items
  | (k, lnk) :: rest, gotMarker, count, objClass, items =>
    if k = "__db__" then getItemsLoop s classFilter marker limit rest gotMarker count objClass items
    else if gotMarker = false then
      if some k = marker then getItemsLoop s classFilter marker limit rest true count objClass items
      else getItemsLoop s classFilter marker limit rest false count objClass items
    else
      match lnk with
      | .soft p =>
        if truthy classFilter = true ∧ ¬ classFilter = some "SoftLink" then
          getItemsLoop s classFilter marker limit rest gotMarker count objClass items
        else
          let items₁ := items ++ [{ name := k, cls := some "SoftLink", path := some p }]
          if 0 < limit ∧ count + 1 = limit then .ok items₁
          else getItemsLoop s classFilter marker limit rest gotMarker (count + 1) objClass items₁
      | .ext _ _ => .error .nameError
      | .hard tgt =>
        let oc := (s.file.kindOf tgt).className
        if truthy classFilter = true ∧ ¬ classFilter = some oc then
          getItemsLoop s classFilter marker limit rest gotMarker count (some oc) items
        else if s.db.hasAddr = false then .error .exception
        else
          let item : Item :=
            { name := k
              cls := some oc
              uuid := some (getA s.db.addrAttrs (toString (s.file.addrOf tgt)))
              attributeCount := some (s.file.attrCount tgt) }
          let items₁ := items ++ [item]
          if 0 < limit ∧ count + 1 = limit then .ok items₁
          else getItemsLoop s classFilter marker limit rest gotMarker (count + 1) (some oc) items₁
      | .other =>
        match objClass with
        | none => .error .nameError
        | some _ => getItemsLoop s classFilter marker limit rest gotMarker count objClass items

/-- `Hdf5db.getItems` (lines 270-332): initialize, resolve the group (returning
`None` when absent), then run the enumeration loop over its children with
`gotMarker` initially set iff no marker was given. -/
def getItems (s0 : DbState) (grpUuid : String) (classFilter marker : Option String)
    (limit : Int) : Except Err (Option (List Item) × DbState) :=
  match initFile s0 with
  | .error e => .error e
  | .ok s =>
    match getGroupByUuid s grpUuid with
    | .error e => .error e
    | .ok (none, s₁) => .ok (none, s₁)
    | .ok (some parent, s₁) =>
      match getItemsLoop s₁ classFilter marker limit (s₁.file.children parent)
          marker.isNone 0 none [] with
      | .error e => .error e
      | .ok items => .ok (some items, s₁)

/-- `Hdf5db.linkObject` (lines 334-359): reject read-only mode with 403;
resolve the parent group and the child (dataset first, then group), with 404
on either miss; delete a pre-existing link of the same name; create the hard
link; return `True`. -/
def linkObject (s0 : DbState) (parentUUID childUUID linkName : String) :
    Except Err (Bool × DbState) :=
  match initFile s0 with
  | .error e => .error e
  | .ok s =>
    if s.readonly then
      .ok (false, {s with httpStatus := 403, httpMessage := some "Updates are not allowed"})
    else
      match getGroupByUuid s parentUUID with
      | .error e => .error e
      | .ok (none, s₁) =>
          .ok (false, {s₁ with httpStatus := 404, httpMessage := some "Parent Group not found"})
      | .ok (some parentObj, s₁) =>
        let child : Except Err (Option ObjId × DbState) :=
          match getDatasetByUuid s₁ childUUID with
          | .error e => .error e
          | .ok (some c, s₂) => .ok (some c, s₂)
          | .ok (none, s₂) => getGroupByUuid s₂ childUUID
        match child with
        | .error e => .error e
        | .ok (none, s₃) =>
            .ok (false, {s₃ with httpStatus := 404, httpMessage := some "Child object not found"})
        | .ok (some childObj, s₃) =>
          let old := s₃.file.children parentObj
          let updated := (delA old linkName) ++ [(linkName, Link.hard childObj)]
          .ok (true, {s₃ with file := {s₃.file with children := fun g =>
             if g = parentObj then updated else s₃.file.children g}})

/-- The hard links of a child list whose target is not `tgt` (the survivors of
`unlinkObject`'s deletion loop). -/
def scrub (l : List (String × Link)) (tgt : ObjId) : List (String × Link) :=
  l.filter (fun nl => match nl.2 with
    | Link.hard t => !(t == tgt)
    | _ => true)

/-- `Hdf5db.unlinkObject` (lines 393-403): delete from `parentGrp` every hard
link whose resolved target is `tgt` (soft/external links are never touched). -/
def unlinkObject (s : DbState) (parentGrp tgt : ObjId) : DbState :=
  {s with file := {s.file with children := fun g =>
     if g = parentGrp then scrub (s.file.children parentGrp) tgt else s.file.children g}}

/-- The `for uuidName in groups` loop of `deleteGroup` (lines 436-438): unlink
the target from every group registered in `{groups}`. -/
def unlinkFromAll : DbState → List (String × ObjId) → ObjId → DbState
  | s, [], _ => s
  | s, (_, g) :: rest, tgt => unlinkFromAll (unlinkObject s g tgt) rest tgt

/-- `Hdf5db.deleteGroup` (lines 420-443): reject read-only (403) and the root
group (403); resolve the target (returning `False` on a miss); unlink it from
the root group and from every group registered in `{groups}`; delete its
address-map attribute and its `{groups}` entry; fall off the end (`None`). -/
def deleteGroup (s0 : DbState) (objUuid : String) : Except Err (Option Bool × DbState) :=
  match initFile s0 with
  | .error e => .error e
  | .ok s =>
    if s.readonly then
      .ok (some false, {s with httpStatus := 403, httpMessage := some "Updates are not allowed"})
    else
      match s.db.rootUUIDAttr with
      | none => .error .keyError
      | some rid =>
        if objUuid = rid then
          .ok (some false,
            {s with httpStatus := 403, httpMessage := some "Can\x27t delete root group"})
        else
          match getGroupByUuid s objUuid with
          | .error e => .error e
          | .ok (none, s₁) => .ok (some false, s₁)
          | .ok (some tgt, s₁) =>
            let s₂ := unlinkObject s₁ s₁.file.rootId tgt
            if s₂.db.hasGroups = false then .error .keyError
            else
              let s₃ := unlinkFromAll s₂ s₂.db.groupsLinks tgt
              if s₃.db.hasAddr = false then .error .keyError
              else
                let key := toString (s₃.file.addrOf tgt)
                match getA s₃.db.addrAttrs key with
                | none => .error .keyError
                | some _ =>
                  let s₄ := {s₃ with db := {s₃.db with addrAttrs := delA s₃.db.addrAttrs key}}
                  match getA s₄.db.groupsLinks objUuid with
                  | none => .error .keyError
                  | some _ =>
                    .ok (none, {s₄ with db :=
                      {s₄.db with groupsLinks := delA s₄.db.groupsLinks objUuid}})


/-! ### Association-list lemmas -/

theorem getA_setA {α : Type u} [DecidableEq α] {β : Type v} (m : List (α × β)) (k k' : α)
    (v : β) : getA (setA m k v) k' = if k = k' then some v else getA m k' := by
  induction m with
  | nil => by_cases h : k = k' <;> simp [setA, getA, h]
  | cons hd tl ih =>
    obtain ⟨a, b⟩ := hd
    by_cases ha : a = k
    · subst ha
      by_cases h : a = k' <;> simp [setA, getA, h]
    · by_cases h : a = k'
      · subst h
        have hk : ¬ k = a := fun hh => ha hh.symm
        simp [setA, getA, ha, hk]
      · simp [setA, getA, ha, h, ih]

theorem getA_setA_self {α : Type u} [DecidableEq α] {β : Type v} (m : List (α × β)) (k : α)
    (v : β) : getA (setA m k v) k = some v := by
  simp [getA_setA]

theorem getA_setA_ne {α : Type u} [DecidableEq α] {β : Type v} (m : List (α × β)) {k k' : α}
    (v : β) (h : ¬ k = k') : getA (setA m k v) k' = getA m k' := by
  simp [getA_setA, h]

theorem getA_delA {α : Type u} [DecidableEq α] {β : Type v} (m : List (α × β)) (k k' : α) :
    getA (delA m k) k' = if k = k' then none else getA m k' := by
  induction m with
  | nil => by_cases h : k = k' <;> simp [delA, getA, h]
  | cons hd tl ih =>
    obtain ⟨a, b⟩ := hd
    by_cases ha : a = k
    · subst ha
      by_cases h : a = k'
      · subst h
        simp [delA, getA, ih]
      · simp [delA, getA, h, ih]
    · by_cases h : a = k'
      · subst h
        have hk : ¬ k = a := fun hh => ha hh.symm
        simp [delA, getA, ha, hk]
      · simp [delA, getA, ha, h, ih]

theorem getA_delA_self {α : Type u} [DecidableEq α] {β : Type v} (m : List (α × β)) (k : α) :
    getA (delA m k) k = none := by
  simp [getA_delA]

/-! ### Preservation lemmas for the traversal -/

/-- Fields of the manager state that a traversal step never changes. -/
def Pres (s s₁ : DbState) : Prop :=
  s₁.file = s.file ∧ s₁.readonly = s.readonly ∧ s₁.uuidGen = s.uuidGen ∧
  s₁.dbRootExists = s.dbRootExists ∧ s₁.db.hasGroups = s.db.hasGroups ∧
  s₁.db.hasDatasets = s.db.hasDatasets ∧ s₁.db.hasDatatypes = s.db.hasDatatypes ∧
  s₁.db.hasAddr = s.db.hasAddr ∧ s₁.db.hasPaths = s.db.hasPaths ∧
  s₁.db.rootUUIDAttr = s.db.rootUUIDAttr

theorem pres_refl (s : DbState) : Pres s s := by
  unfold Pres
  refine ⟨rfl, rfl, rfl, rfl, rfl, rfl, rfl, rfl, rfl, rfl⟩

theorem pres_trans {s t u : DbState} (h₁ : Pres s t) (h₂ : Pres t u) : Pres s u := by
  unfold Pres at *
  obtain ⟨a1, a2, a3, a4, a5, a6, a7, a8, a9, a10⟩ := h₁
  obtain ⟨b1, b2, b3, b4, b5, b6, b7, b8, b9, b10⟩ := h₂
  exact ⟨b1.trans a1, b2.trans a2, b3.trans a3, b4.trans a4, b5.trans a5, b6.trans a6,
    b7.trans a7, b8.trans a8, b9.trans a9, b10.trans a10⟩

theorem colInsert_fields {db : DbRoot} {k : ObjKind} {id : String} {obj : ObjId} {db₁ : DbRoot}
    (h : colInsert db k id obj = .ok db₁) :
    db₁.hasGroups = db.hasGroups ∧ db₁.hasDatasets = db.hasDatasets ∧
    db₁.hasDatatypes = db.hasDatatypes ∧ db₁.hasAddr = db.hasAddr ∧
    db₁.hasPaths = db.hasPaths ∧ db₁.rootUUIDAttr = db.rootUUIDAttr ∧
    db₁.addrAttrs = db.addrAttrs := by
  cases k
  · simp only [colInsert] at h
    split at h
    · exact absurd h (by simp)
    · injection h with h
      subst h
      exact ⟨rfl, rfl, rfl, rfl, rfl, rfl, rfl⟩
  · simp only [colInsert] at h
    split at h
    · exact absurd h (by simp)
    · injection h with h
      subst h
      exact ⟨rfl, rfl, rfl, rfl, rfl, rfl, rfl⟩
  · simp only [colInsert] at h
    split at h
    · exact absurd h (by simp)
    · injection h with h
      subst h
      exact ⟨rfl, rfl, rfl, rfl, rfl, rfl, rfl⟩
  · simp only [colInsert] at h
    exact absurd h (by simp)

theorem visit_cases {s : DbState} {p : String} {o : ObjId} {s₁ : DbState}
    (h : visit s p o = .ok s₁) :
    Pres s s₁ ∧
    ((s₁.db.addrAttrs = s.db.addrAttrs ∧ s₁.uuidCtr = s.uuidCtr) ∨
     (s₁.db.addrAttrs = setA s.db.addrAttrs (toString (s.file.addrOf o)) (s.uuidGen s.uuidCtr) ∧
      s₁.uuidCtr = s.uuidCtr + 1)) := by
  unfold visit at h
  split at h
  · injection h with h; subst h; exact ⟨pres_refl s, Or.inl ⟨rfl, rfl⟩⟩
  split at h
  · injection h with h; subst h
    exact ⟨⟨rfl, rfl, rfl, rfl, rfl, rfl, rfl, rfl, rfl, rfl⟩, Or.inl ⟨rfl, rfl⟩⟩
  split at h
  · exact absurd h (by simp)
  split at h
  · exact absurd h (by simp)
  split at h
  · -- writable branch: the match on colInsert
    split at h
    · exact absurd h (by simp)
    · rename_i db₁ hins
      injection h with h; subst h
      obtain ⟨f1, f2, f3, f4, f5, f6, f7⟩ := colInsert_fields hins
      exact ⟨⟨rfl, rfl, rfl, rfl, f1, f2, f3, f4, f5, f6⟩, Or.inr ⟨by rw [f7], rfl⟩⟩
  split at h
  · exact absurd h (by simp)
  · injection h with h; subst h
    exact ⟨⟨rfl, rfl, rfl, rfl, rfl, rfl, rfl, rfl, rfl, rfl⟩, Or.inr ⟨rfl, rfl⟩⟩

theorem visit_pres {s : DbState} {p : String} {o : ObjId} {s₁ : DbState}
    (h : visit s p o = .ok s₁) : Pres s s₁ :=
  (visit_cases h).1

theorem visititems_pres : ∀ (l : List (String × ObjId)) {s s₁ : DbState},
    visititems s l = .ok s₁ → Pres s s₁ := by
  intro l
  induction l with
  | nil =>
    intro s s₁ h
    injection h with h; subst h; exact pres_refl s
  | cons q rest ih =>
    intro s s₁ h
    obtain ⟨p, o⟩ := q
    unfold visititems at h
    split at h
    · exact absurd h (by simp)
    · rename_i t hv
      exact pres_trans (visit_pres hv) (ih h)

theorem visit_ctr_mono {s : DbState} {p : String} {o : ObjId} {s₁ : DbState}
    (h : visit s p o = .ok s₁) : s.uuidCtr ≤ s₁.uuidCtr := by
  rcases (visit_cases h).2 with ⟨_, hc⟩ | ⟨_, hc⟩
  · rw [hc]
  · rw [hc]
    exact Nat.le_succ _

theorem visititems_ctr_mono : ∀ (l : List (String × ObjId)) {s s₁ : DbState},
    visititems s l = .ok s₁ → s.uuidCtr ≤ s₁.uuidCtr := by
  intro l
  induction l with
  | nil =>
    intro s s₁ h
    injection h with h
    subst h
    exact le_rfl
  | cons q rest ih =>
    intro s s₁ h
    obtain ⟨p, o⟩ := q
    unfold visititems at h
    split at h
    · exact absurd h (by simp)
    · rename_i t hv
      exact le_trans (visit_ctr_mono hv) (ih h)

/-- Keys whose addresses are not traversed keep their binding in the address
map across `visititems`. -/
theorem visititems_getA_pres : ∀ (l : List (String × ObjId)) {s s₁ : DbState} {k : String},
    visititems s l = .ok s₁ →
    (∀ q ∈ l, ¬ toString (s.file.addrOf q.2) = k) →
    getA s₁.db.addrAttrs k = getA s.db.addrAttrs k := by
  intro l
  induction l with
  | nil =>
    intro s s₁ k h _
    injection h with h
    subst h
    rfl
  | cons q rest ih =>
    intro s s₁ k h hk
    obtain ⟨p, o⟩ := q
    unfold visititems at h
    split at h
    · exact absurd h (by simp)
    · rename_i t hv
      have hfile : t.file = s.file := (visit_pres hv).1
      have hrest : ∀ q ∈ rest, ¬ toString (t.file.addrOf q.2) = k := by
        intro q hq
        rw [hfile]
        exact hk q (List.mem_cons_of_mem _ hq)
      have h2 := ih h hrest
      rcases (visit_cases hv).2 with ⟨ha, _⟩ | ⟨ha, _⟩
      · rw [h2, ha]
      · rw [h2, ha, getA_setA_ne]
        exact hk (p, o) (List.mem_cons_self _ _)

/-- Invariant of the `{addr}` map during traversal: every stored value is a
UUID that the generator already produced, and distinct addresses hold
distinct UUIDs. -/
def AddrInv (gen : Nat → String) (ctr : Nat) (m : List (String × String)) : Prop :=
  (∀ k u, getA m k = some u → ∃ i, i < ctr ∧ u = gen i) ∧
  (∀ k₁ k₂ u, getA m k₁ = some u → getA m k₂ = some u → k₁ = k₂)

theorem addrInv_setA {gen : Nat → String} {ctr : Nat} {m : List (String × String)}
    (hinj : Function.Injective gen) (h : AddrInv gen ctr m) (k : String) :
    AddrInv gen (ctr + 1) (setA m k (gen ctr)) := by
  obtain ⟨h1, h2⟩ := h
  constructor
  · intro k' u hu
    rw [getA_setA] at hu
    by_cases hk : k = k'
    · rw [if_pos hk] at hu
      injection hu with hu
      exact ⟨ctr, Nat.lt_succ_self _, hu.symm⟩
    · rw [if_neg hk] at hu
      obtain ⟨i, hi, he⟩ := h1 k' u hu
      exact ⟨i, Nat.lt_succ_of_lt hi, he⟩
  · intro k₁ k₂ u hu₁ hu₂
    rw [getA_setA] at hu₁ hu₂
    by_cases hk₁ : k = k₁ <;> by_cases hk₂ : k = k₂
    · rw [← hk₁, ← hk₂]
    · rw [if_pos hk₁] at hu₁
      rw [if_neg hk₂] at hu₂
      obtain ⟨i, hi, he⟩ := h1 k₂ u hu₂
      injection hu₁ with hu₁
      exfalso
      have hci : ctr = i := hinj (by rw [hu₁, he])
      omega
    · rw [if_pos hk₂] at hu₂
      rw [if_neg hk₁] at hu₁
      obtain ⟨i, hi, he⟩ := h1 k₁ u hu₁
      injection hu₂ with hu₂
      exfalso
      have hci : ctr = i := hinj (by rw [hu₂, he])
      omega
    · rw [if_neg hk₁] at hu₁
      rw [if_neg hk₂] at hu₂
      exact h2 k₁ k₂ u hu₁ hu₂

theorem visit_addrInv {s : DbState} {p : String} {o : ObjId} {s₁ : DbState}
    (hinj : Function.Injective s.uuidGen) (h : visit s p o = .ok s₁)
    (hI : AddrInv s.uuidGen s.uuidCtr s.db.addrAttrs) :
    AddrInv s₁.uuidGen s₁.uuidCtr s₁.db.addrAttrs := by
  have hgen : s₁.uuidGen = s.uuidGen := (visit_pres h).2.2.1
  rcases (visit_cases h).2 with ⟨ha, hc⟩ | ⟨ha, hc⟩
  · rw [hgen, ha, hc]
    exact hI
  · rw [hgen, ha, hc]
    exact addrInv_setA hinj hI _

theorem visititems_addrInv : ∀ (l : List (String × ObjId)) {s s₁ : DbState},
    Function.Injective s.uuidGen → visititems s l = .ok s₁ →
    AddrInv s.uuidGen s.uuidCtr s.db.addrAttrs →
    AddrInv s₁.uuidGen s₁.uuidCtr s₁.db.addrAttrs := by
  intro l
  induction l with
  | nil =>
    intro s s₁ _ h hI
    injection h with h
    subst h
    exact hI
  | cons q rest ih =>
    intro s s₁ hinj h hI
    obtain ⟨p, o⟩ := q
    unfold visititems at h
    split at h
    · exact absurd h (by simp)
    · rename_i t hv
      have hgen : t.uuidGen = s.uuidGen := (visit_pres hv).2.2.1
      have hinj₁ : Function.Injective t.uuidGen := by
        rw [hgen]
        exact hinj
      exact ih hinj₁ h (visit_addrInv hinj hv hI)

/-- C2: for every pair of distinct objects visited by the traversal, the
assigned UUIDs are distinct (the address map is one-to-one), an address
already mapped is never reassigned by the remaining traversal, and
`getUUIDByAddress` keeps returning the same UUID afterwards.  The traversal is
split as `pre ++ suf`; `hkeys` is the engine contract that distinct objects
have distinct addresses and each object is visited exactly once. -/
theorem visit_uuid_unique_stable (s s₁ s₂ : DbState) (pre suf : List (String × ObjId))
    (hgen : Function.Injective s.uuidGen)
    (hstart : s.db.addrAttrs = [])
    (hkeys : ((pre ++ suf).map (fun q => toString (s.file.addrOf q.2))).Nodup)
    (hpre : visititems s pre = .ok s₁)
    (hsuf : visititems s₁ suf = .ok s₂) :
    (∀ k₁ k₂ u, getA s₂.db.addrAttrs k₁ = some u → getA s₂.db.addrAttrs k₂ = some u → k₁ = k₂)
    ∧ (∀ k u, getA s₁.db.addrAttrs k = some u → getA s₂.db.addrAttrs k = some u)
    ∧ (∀ a u, getUUIDByAddress s₁ a = .ok (some u) → getUUIDByAddress s₂ a = .ok (some u)) := by
  have hpres₁ : Pres s s₁ := visititems_pres pre hpre
  have hpres₂ : Pres s₁ s₂ := visititems_pres suf hsuf
  have hfile₁ : s₁.file = s.file := hpres₁.1
  have hgen₁ : Function.Injective s₁.uuidGen := by
    rw [hpres₁.2.2.1]
    exact hgen
  -- the invariant holds at the start, after `pre`, and after `suf`
  have hI0 : AddrInv s.uuidGen s.uuidCtr s.db.addrAttrs := by
    constructor
    · intro k u hu
      rw [hstart] at hu
      exact absurd hu (by simp [getA])
    · intro k₁ k₂ u hu₁ _
      rw [hstart] at hu₁
      exact absurd hu₁ (by simp [getA])
  have hI₂ : AddrInv s₂.uuidGen s₂.uuidCtr s₂.db.addrAttrs :=
    visititems_addrInv suf hgen₁ hsuf (visititems_addrInv pre hgen hpre hI0)
  -- stability of any binding present after `pre`
  have hstab : ∀ k u, getA s₁.db.addrAttrs k = some u → getA s₂.db.addrAttrs k = some u := by
    intro k u hu
    have hnotsuf : ∀ q ∈ suf, ¬ toString (s₁.file.addrOf q.2) = k := by
      intro q hq hk
      -- then `k` would also be a key of `pre`, contradicting Nodup
      by_cases hkpre : ∀ q ∈ pre, ¬ toString (s.file.addrOf q.2) = k
      · have := visititems_getA_pres pre hpre hkpre
        rw [hu, hstart] at this
        exact absurd this (by simp [getA])
      · push_neg at hkpre
        obtain ⟨q', hq', hk'⟩ := hkpre
        rw [List.map_append, List.nodup_append] at hkeys
        exact hkeys.2.2 (List.mem_map.2 ⟨q', hq', hk'⟩)
          (List.mem_map.2 ⟨q, hq, by rw [← hfile₁]; exact hk⟩)
    rw [visititems_getA_pres suf hsuf hnotsuf]
    exact hu
  refine ⟨hI₂.2, hstab, ?_⟩
  intro a u hu
  unfold getUUIDByAddress at hu ⊢
  split at hu
  · exact absurd hu (by simp)
  · rename_i hA₁
    injection hu with hu
    have hA₂ : ¬ s₂.db.hasAddr = false := by
      rw [hpres₂.2.2.2.2.2.2.2.1]
      exact hA₁
    rw [if_neg hA₂, hstab _ _ hu]

/-! ### initFile lemmas (claim C1) -/

theorem initFile_guarded {s : DbState} (h : initGuard s = true) :
    initFile s = .ok (statusReset s) := by
  unfold initGuard at h
  unfold initFile
  cases hro : s.readonly with
  | true =>
    rw [hro] at h
    simp at h
    simp [statusReset, hro, h]
  | false =>
    rw [hro] at h
    simp at h
    simp [statusReset, hro, h]

theorem initFileBody_flags {s s₁ : DbState} (h : initFileBody s = .ok s₁) :
    s₁.db.hasGroups = true ∧ s₁.db.hasDatasets = true ∧ s₁.db.hasDatatypes = true ∧
    s₁.db.hasAddr = true ∧ (s.readonly = true → s₁.db.hasPaths = true) ∧
    s₁.db.rootUUIDAttr = some (s.uuidGen s.uuidCtr) ∧
    s₁.dbRootExists = s.dbRootExists ∧ s₁.readonly = s.readonly ∧ s₁.file = s.file := by
  unfold initFileBody at h
  split at h
  · exact absurd h (by simp)
  split at h
  · exact absurd h (by simp)
  split at h
  · exact absurd h (by simp)
  split at h
  · exact absurd h (by simp)
  split at h
  · rename_i hro
    split at h
    · exact absurd h (by simp)
    · obtain ⟨f, ro, gen, dbe, g, d, t, a, p, r⟩ := visititems_pres _ h
      exact ⟨g, d, t, a, fun _ => p, r, dbe, ro.trans (by simp [hro]), f⟩
  · rename_i hro
    obtain ⟨f, ro, gen, dbe, g, d, t, a, p, r⟩ := visititems_pres _ h
    refine ⟨g, d, t, a, fun hh => absurd hh ?_, r, dbe, ro, f⟩
    simpa using hro

theorem initFile_initGuard {s s₁ : DbState} (h : initFile s = .ok s₁) :
    initGuard s₁ = true := by
  simp only [initFile] at h
  split at h
  case isTrue hro =>
    split at h
    case isTrue hgr =>
      injection h with h
      subst h
      simp only [statusReset] at hro hgr
      simp [initGuard, statusReset, hro, hgr]
    case isFalse hgr =>
      obtain ⟨g, _, _, _, _, _, _, ro, _⟩ := initFileBody_flags h
      have hro₁ : s₁.readonly = true := by
        rw [ro]
        simpa [statusReset] using hro
      simp [initGuard, hro₁, g]
  case isFalse hro =>
    split at h
    case isTrue hd =>
      injection h with h
      subst h
      simp only [statusReset] at hro hd
      simp [initGuard, statusReset, hro, hd]
    case isFalse hd =>
      obtain ⟨g, _, _, _, _, _, dbe, ro, _⟩ := initFileBody_flags h
      have hro₁ : s₁.readonly = false := by
        rw [ro]
        simpa [statusReset] using hro
      have hdbe : s₁.dbRootExists = true := dbe
      simp [initGuard, hro₁, hdbe]

/-- The base concrete container used by the witnesses: one root group, the
identity address map, no children, empty traversal. -/
def F0 : HFile :=
  { rootId := 0, kindOf := fun _ => .group, addrOf := fun o => o,
    attrCount := fun _ => 0, nameOf := fun _ => "/g", children := fun _ => [],
    byPath := fun _ => none, visitOrder := [] }

/-- Concrete writable manager whose `__db__` index root exists but is empty:
`initGuard` holds even though the `{groups}` collection is absent. -/
def cx1 : DbState :=
  { readonly := false, file := F0, dbRootExists := true,
    db := {}, uuidGen := fun _ => "u", uuidCtr := 0 }

/-- C1 (amended): `initFile` is idempotent, but the already-initialized test is
the presence of the index root itself (`__db__` in the source file) in
writable mode, and the presence of the `{groups}` collection in the shadow
root in read-only mode; when the guard holds it returns immediately with only
the status pair reset, a second call after any completed call changes nothing
but the status pair (index contents are identical), and when the guard fails
it stores a fresh root-identity UUID and creates the collections required for
the mode before traversing. -/
theorem initFile_idempotent :
    (∀ s : DbState, initGuard s = true → initFile s = .ok (statusReset s)) ∧
    (∀ s s₁ : DbState, initFile s = .ok s₁ → initFile s₁ = .ok (statusReset s₁)) ∧
    (∀ s s₁ : DbState, initGuard s = false → initFile s = .ok s₁ →
       s₁.db.hasGroups = true ∧ s₁.db.hasDatasets = true ∧ s₁.db.hasDatatypes = true ∧
       s₁.db.hasAddr = true ∧ (s.readonly = true → s₁.db.hasPaths = true) ∧
       s₁.db.rootUUIDAttr = some (s.uuidGen s.uuidCtr)) := by
  refine ⟨fun s h => initFile_guarded h, ?_, ?_⟩
  · intro s s₁ h
    exact initFile_guarded (initFile_initGuard h)
  · intro s s₁ hg h
    simp only [initFile] at h
    split at h
    case isTrue hro =>
      split at h
      case isTrue hgr =>
        exfalso
        simp only [statusReset] at hro hgr
        simp [initGuard, hro, hgr] at hg
      case isFalse hgr =>
        obtain ⟨g, d, t, a, p, r, _, _, _⟩ := initFileBody_flags h
        exact ⟨g, d, t, a, fun _ => p hro, r⟩
    case isFalse hro =>
      split at h
      case isTrue hd =>
        exfalso
        simp only [statusReset] at hro hd
        rw [Bool.not_eq_true] at hro
        simp [initGuard, hro, hd] at hg
      case isFalse hd =>
        obtain ⟨g, d, t, a, p, r, _, _, _⟩ := initFileBody_flags h
        have hro₁ : s.readonly = false := by
          simpa [statusReset] using hro
        refine ⟨g, d, t, a, fun hh => ?_, r⟩
        rw [hro₁] at hh
        cases hh

/-- C1 counterexample: at the writable state `cx1` the index root exists but
does not contain the `group-links` collection, so by the claim `initFile`
should create the index collections; the code instead returns immediately and
`{groups}` is still absent afterwards. -/
theorem initFile_guard_counterexample :
    initFile cx1 = .ok cx1 ∧ cx1.readonly = false ∧ cx1.db.hasGroups = false :=
  ⟨rfl, rfl, rfl⟩

/-- C1 witness: the amended theorem applied at the concrete state `cx1`. -/
theorem initFile_idempotent_w : initFile cx1 = .ok (statusReset cx1) :=
  initFile_idempotent.1 cx1 rfl

/-! ### Claim C2 witness infrastructure -/

/-- An injective stand-in for the `uuid.uuid1()` value stream. -/
def natUuid (n : Nat) : String := String.mk (List.replicate n 'u')

theorem natUuid_inj : Function.Injective natUuid := by
  intro a b h
  have h2 : List.replicate a 'u' = List.replicate b 'u' := congrArg String.data h
  have h3 := congrArg List.length h2
  simpa using h3

/-- Concrete two-object container for exercising the traversal. -/
def w2 : DbState :=
  { readonly := false
    file :=
      { rootId := 0, kindOf := fun _ => .group, addrOf := fun o => o,
        attrCount := fun _ => 0, nameOf := fun _ => "/g", children := fun _ => [],
        byPath := fun _ => none, visitOrder := [("g1", 1), ("g2", 2)] }
    dbRootExists := true
    db := { hasGroups := true, hasDatasets := true, hasDatatypes := true, hasAddr := true }
    uuidGen := natUuid
    uuidCtr := 0 }

def w2pre : List (String × ObjId) := [("g1", 1)]

def w2suf : List (String × ObjId) := [("g2", 2)]

/-- The state after visiting the first object of `w2`. -/
def w2mid : DbState :=
  match visititems w2 w2pre with
  | .ok s => s
  | .error _ => w2

/-- The state after the full traversal of `w2`. -/
def w2fin : DbState :=
  match visititems w2mid w2suf with
  | .ok s => s
  | .error _ => w2mid

/-- C2 witness: the stability conjunct applied at the concrete traversal of
`w2`, showing the UUID assigned to address 1 after the first visit is still
returned at the end of the traversal. -/
theorem visit_uuid_unique_stable_w :
    getA w2fin.db.addrAttrs "1" = some (natUuid 0) :=
  (visit_uuid_unique_stable w2 w2mid w2fin w2pre w2suf natUuid_inj rfl (by decide)
      rfl rfl).2.1 "1" (natUuid 0) rfl

/-! ### Claim C4 -/

/-- C4 (amended): for every path other than `/` that does not lie under the
index root and does not resolve in the underlying engine, `getUUIDByPath`
raises the engine's `KeyError` — a hard failure — instead of reporting
NotFound as a non-raising absence. -/
theorem getUUIDByPath_missing_raises (s : DbState) (path : String)
    (hg : initGuard s = true)
    (hdb : isDbPath path = false)
    (hroot : ¬ path = "/")
    (hres : s.file.byPath path = none) :
    getUUIDByPath s path = .error .keyError := by
  unfold getUUIDByPath
  rw [initFile_guarded hg]
  simp [statusReset, hdb, hroot, hres]

/-- Initialized writable manager over a container that resolves no path. -/
def cx4 : DbState :=
  { readonly := false, file := F0, dbRootExists := true,
    db := { hasGroups := true, hasDatasets := true, hasDatatypes := true, hasAddr := true,
            rootUUIDAttr := some "root" },
    uuidGen := fun _ => "u", uuidCtr := 0 }

/-- C4 counterexample: at the concrete state `cx4` and path `"nope"` — not
`/`, not under the index root, not resolvable — the call raises (evaluates to
an error), contradicting the claim that the failure is reported as an
explicit absence and does not raise. -/
theorem getUUIDByPath_missing_counterexample :
    getUUIDByPath cx4 "nope" = .error .keyError := rfl

/-- C4 witness: the amended theorem applied at `cx4` and the path `"zzz"`. -/
theorem getUUIDByPath_missing_raises_w :
    getUUIDByPath cx4 "zzz" = .error .keyError :=
  getUUIDByPath_missing_raises cx4 "zzz" rfl rfl (by decide) rfl

/-! ### Claim C8 -/

/-- C8 (amended): on a read-only manager whose shadow index is already
initialized, `linkObject` always reports ReadOnly — it returns `False` with
status 403 and the message "Updates are not allowed" — and mutates neither
the source container nor the shadow index container: the resulting state
equals the original except for the status pair.  (On a read-only manager
whose shadow index is not yet initialized, the lazy initialization inside the
call mutates the shadow container first; see the counterexample.) -/
theorem linkObject_readonly_rejects (s : DbState) (p c n : String)
    (hro : s.readonly = true) (hg : s.db.hasGroups = true) :
    linkObject s p c n =
      .ok (false,
        { s with
          httpStatus := 403
          httpMessage := some "Updates are not allowed" }) := by
  unfold linkObject
  rw [initFile_guarded (show initGuard s = true by simp [initGuard, hro, hg])]
  simp [statusReset, hro]

/-- Freshly opened read-only manager: the shadow index is not initialized. -/
def cx8 : DbState :=
  { readonly := true, file := F0, dbRootExists := false, db := {},
    uuidGen := fun _ => "u", uuidCtr := 0 }

/-- The state `linkObject` leaves behind at `cx8`. -/
def cx8after : DbState :=
  match linkObject cx8 "p" "c" "n" with
  | .ok q => q.2
  | .error _ => cx8

/-- C8 counterexample: on the freshly opened read-only manager `cx8` the call
reports ReadOnly as claimed, but the state visible after the call does not
equal the state before it: the lazy index initialization has mutated the
shadow container (the `{groups}` collection now exists). -/
theorem linkObject_readonly_counterexample :
    linkObject cx8 "p" "c" "n" = .ok (false, cx8after) ∧
    cx8.db.hasGroups = false ∧ cx8after.db.hasGroups = true ∧
    cx8after.httpStatus = 403 :=
  ⟨rfl, rfl, rfl, rfl⟩

/-- Read-only manager with an already-initialized shadow index. -/
def w8 : DbState :=
  { readonly := true, file := F0, dbRootExists := false,
    db := { hasGroups := true, hasDatasets := true, hasDatatypes := true, hasAddr := true,
            hasPaths := true, rootUUIDAttr := some "root" },
    uuidGen := fun _ => "u", uuidCtr := 0 }

/-- C8 witness: the amended theorem applied at the concrete state `w8`. -/
theorem linkObject_readonly_rejects_w :
    linkObject w8 "p" "c" "n" =
      .ok (false,
        { w8 with
          httpStatus := 403
          httpMessage := some "Updates are not allowed" }) :=
  linkObject_readonly_rejects w8 "p" "c" "n" rfl rfl

/-! ### Claim C10 -/

theorem initFile_readonly {s t : DbState} (h : initFile s = .ok t) :
    t.readonly = s.readonly := by
  simp only [initFile] at h
  split at h
  case isTrue hro =>
    split at h
    case isTrue hgr =>
      injection h with h
      subst h
      rfl
    case isFalse hgr =>
      exact (initFileBody_flags h).2.2.2.2.2.2.2.1
  case isFalse hro =>
    split at h
    case isTrue hd =>
      injection h with h
      subst h
      rfl
    case isFalse hd =>
      exact (initFileBody_flags h).2.2.2.2.2.2.2.1

/-- C10: every non-raising `deleteGroup` call returns either `None` (the
success path falls off the end of the method) or `False` (each failure path),
never `True`: the returned value is falsy in all cases, so a caller cannot
distinguish success from failure from the return value alone and must consult
the status field; in particular the read-only rejection returns `False` with
status 403. -/
theorem deleteGroup_return_falsy (s s₁ : DbState) (u : String) (r : Option Bool)
    (h : deleteGroup s u = .ok (r, s₁)) :
    (r = none ∨ r = some false) ∧
    (s.readonly = true → r = some false ∧ s₁.httpStatus = 403) := by
  simp only [deleteGroup] at h
  split at h
  · exact absurd h (by simp)
  rename_i t hI
  have hrot : t.readonly = s.readonly := initFile_readonly hI
  split at h
  case isTrue hro =>
    injection h with h
    have h1 : r = some false := by
      have := congrArg Prod.fst h
      simpa using this.symm
    have h2 : s₁.httpStatus = 403 := by
      have := congrArg (fun q => q.2.httpStatus) h
      simpa using this.symm
    exact ⟨Or.inr h1, fun _ => ⟨h1, h2⟩⟩
  case isFalse hro =>
    have hsro : ¬ s.readonly = true := by
      rw [← hrot]
      exact hro
    split at h
    · exact absurd h (by simp)
    rename_i rid hrid
    split at h
    case isTrue _ =>
      injection h with h
      have h1 : r = some false := by
        have := congrArg Prod.fst h
        simpa using this.symm
      exact ⟨Or.inr h1, fun hh => absurd hh hsro⟩
    case isFalse _ =>
      split at h
      · exact absurd h (by simp)
      · injection h with h
        have h1 : r = some false := by
          have := congrArg Prod.fst h
          simpa using this.symm
        exact ⟨Or.inr h1, fun hh => absurd hh hsro⟩
      · split at h
        · exact absurd h (by simp)
        split at h
        · exact absurd h (by simp)
        split at h
        · exact absurd h (by simp)
        split at h
        · exact absurd h (by simp)
        injection h with h
        have h1 : r = none := by
          have := congrArg Prod.fst h
          simpa using this.symm
        exact ⟨Or.inl h1, fun hh => absurd hh hsro⟩

/-- Read-only manager with an initialized shadow index, for the C10 witness. -/
def w10 : DbState :=
  { readonly := true, file := F0, dbRootExists := false,
    db := { hasGroups := true, hasDatasets := true, hasDatatypes := true, hasAddr := true,
            hasPaths := true, rootUUIDAttr := some "root" },
    uuidGen := fun _ => "u", uuidCtr := 0 }

/-- The state `deleteGroup` leaves behind at `w10`. -/
def w10res : DbState :=
  match deleteGroup w10 "x" with
  | .ok q => q.2
  | .error _ => w10

/-- C10 witness: the theorem applied at the concrete read-only call
`deleteGroup w10 "x"`, which returns `False` (falsy) with status 403. -/
theorem deleteGroup_return_falsy_w :
    ((some false : Option Bool) = none ∨ (some false : Option Bool) = some false) ∧
    (w10.readonly = true → (some false : Option Bool) = some false ∧
      w10res.httpStatus = 403) :=
  deleteGroup_return_falsy w10 w10res "x" (some false) rfl

/-! ### getItems infrastructure (claims C5, C6, C7, C9) -/

/-- The descriptor `getItems` builds for a hard-link child. -/
def itemHard (s : DbState) (k : String) (tgt : ObjId) : Item :=
  { name := k
    cls := some (s.file.kindOf tgt).className
    uuid := some (getA s.db.addrAttrs (toString (s.file.addrOf tgt)))
    attributeCount := some (s.file.attrCount tgt) }

/-- Resolution of a non-root group UUID through `{groups}` on an initialized
writable manager. -/
theorem getGroupByUuid_writable {s : DbState} {u rid : String} {g : ObjId}
    (hg : initGuard s = true) (hro : s.readonly = false)
    (hrid : s.db.rootUUIDAttr = some rid) (hne : ¬ u = rid)
    (hGr : s.db.hasGroups = true) (hres : getA s.db.groupsLinks u = some g) :
    getGroupByUuid s u = .ok (some g, statusReset s) := by
  unfold getGroupByUuid
  rw [initFile_guarded hg]
  simp [statusReset, hrid, hne, hro, hGr, hres]

/-- A missing non-root group UUID on an initialized writable manager reports
404 / "Resource not found". -/
theorem getGroupByUuid_writable_miss {s : DbState} {u rid : String}
    (hg : initGuard s = true) (hro : s.readonly = false)
    (hrid : s.db.rootUUIDAttr = some rid) (hne : ¬ u = rid)
    (hGr : s.db.hasGroups = true) (hres : getA s.db.groupsLinks u = none) :
    getGroupByUuid s u =
      .ok (none, {s with httpStatus := 404, httpMessage := some "Resource not found"}) := by
  unfold getGroupByUuid
  rw [initFile_guarded hg]
  simp [statusReset, hrid, hne, hro, hGr, hres]

/-- `getItems` on a resolvable non-root group reduces to the enumeration loop
over that group's children. -/
theorem getItems_resolved {s : DbState} {u rid : String} {g : ObjId} (cf m : Option String)
    (lim : Int)
    (hg : initGuard s = true) (hro : s.readonly = false)
    (hrid : s.db.rootUUIDAttr = some rid) (hne : ¬ u = rid)
    (hGr : s.db.hasGroups = true) (hres : getA s.db.groupsLinks u = some g) :
    getItems s u cf m lim =
      match getItemsLoop (statusReset s) cf m lim (s.file.children g) m.isNone 0 none [] with
      | .error e => .error e
      | .ok items => .ok (some items, statusReset s) := by
  unfold getItems
  rw [initFile_guarded hg]
  simp only [@getGroupByUuid_writable (statusReset s) u rid g hg hro hrid hne hGr hres]
  rfl

theorem loop_nil {s : DbState} {cf m : Option String} {lim : Int} {gm : Bool} {cnt : Int}
    {oc : Option String} {acc : List Item} :
    getItemsLoop s cf m lim [] gm cnt oc acc = .ok acc := rfl

theorem loop_db {s : DbState} {cf m : Option String} {lim : Int} {lnk : Link}
    {rest : List (String × Link)} {gm : Bool} {cnt : Int} {oc : Option String}
    {acc : List Item} :
    getItemsLoop s cf m lim (("__db__", lnk) :: rest) gm cnt oc acc =
      getItemsLoop s cf m lim rest gm cnt oc acc := by
  simp [getItemsLoop]

theorem loop_premarker_miss {k mk : String} (hk : ¬ k = "__db__") (hm : ¬ k = mk)
    {s : DbState} {cf : Option String} {lim : Int} {lnk : Link}
    {rest : List (String × Link)} {cnt : Int} {oc : Option String} {acc : List Item} :
    getItemsLoop s cf (some mk) lim ((k, lnk) :: rest) false cnt oc acc =
      getItemsLoop s cf (some mk) lim rest false cnt oc acc := by
  simp [getItemsLoop, hk, hm]

theorem loop_marker_hit {k : String} (hk : ¬ k = "__db__")
    {s : DbState} {cf : Option String} {lim : Int} {lnk : Link}
    {rest : List (String × Link)} {cnt : Int} {oc : Option String} {acc : List Item} :
    getItemsLoop s cf (some k) lim ((k, lnk) :: rest) false cnt oc acc =
      getItemsLoop s cf (some k) lim rest true cnt oc acc := by
  simp [getItemsLoop, hk]

theorem loop_hard_emit {k : String} (hk : ¬ k = "__db__") {s : DbState} {cf : Option String}
    (hcf : truthy cf = false) (hA : s.db.hasAddr = true)
    {m : Option String} {lim : Int} {tgt : ObjId} {rest : List (String × Link)}
    {cnt : Int} {oc : Option String} {acc : List Item} :
    getItemsLoop s cf m lim ((k, Link.hard tgt) :: rest) true cnt oc acc =
      (if 0 < lim ∧ cnt + 1 = lim then .ok (acc ++ [itemHard s k tgt])
       else getItemsLoop s cf m lim rest true (cnt + 1)
              (some (s.file.kindOf tgt).className) (acc ++ [itemHard s k tgt])) := by
  simp [getItemsLoop, hk, hcf, hA, itemHard]

theorem loop_other_skip {k : String} (hk : ¬ k = "__db__") {s : DbState} {cf : Option String}
    {m : Option String} {lim : Int} {rest : List (String × Link)} {cnt : Int}
    {ocs : String} {acc : List Item} :
    getItemsLoop s cf m lim ((k, Link.other) :: rest) true cnt (some ocs) acc =
      getItemsLoop s cf m lim rest true cnt (some ocs) acc := by
  simp [getItemsLoop, hk]

/-- The loop with an unseen marker skips every child without emitting. -/
theorem loop_marker_never : ∀ (children : List (String × Link)) {mk : String},
    mk ∉ children.map Prod.fst →
    ∀ {s : DbState} {cf : Option String} {lim cnt : Int} {oc : Option String}
      {acc : List Item},
    getItemsLoop s cf (some mk) lim children false cnt oc acc = .ok acc := by
  intro children
  induction children with
  | nil =>
    intro mk hm s cf lim cnt oc acc
    rfl
  | cons hd rest ih =>
    intro mk hm s cf lim cnt oc acc
    obtain ⟨k, lnk⟩ := hd
    have hm' : mk ∉ rest.map Prod.fst := fun hh => hm (List.mem_cons_of_mem _ hh)
    have hkm : ¬ k = mk := by
      intro hh
      exact hm (by rw [List.map_cons, hh]; exact List.mem_cons_self _ _)
    by_cases hk : k = "__db__"
    · subst hk
      rw [loop_db]
      exact ih hm'
    · rw [loop_premarker_miss hk hkm]
      exact ih hm'

/-- Skipping a prefix that does not contain the marker, then consuming the
marker entry itself, resumes the loop from the next child with the marker
seen and the accumulators untouched. -/
theorem loop_skip_until_marker : ∀ (pre : List (String × Link)) {mk : String},
    mk ∉ pre.map Prod.fst → ¬ mk = "__db__" →
    ∀ {s : DbState} {cf : Option String} {lim cnt : Int} {oc : Option String}
      {acc : List Item} (lnk : Link) (post : List (String × Link)),
    getItemsLoop s cf (some mk) lim (pre ++ (mk, lnk) :: post) false cnt oc acc =
      getItemsLoop s cf (some mk) lim post true cnt oc acc := by
  intro pre
  induction pre with
  | nil =>
    intro mk hpre hmdb s cf lim cnt oc acc lnk post
    rw [List.nil_append]
    exact loop_marker_hit hmdb
  | cons hd rest ih =>
    intro mk hpre hmdb s cf lim cnt oc acc lnk post
    obtain ⟨k, l⟩ := hd
    have hpre' : mk ∉ rest.map Prod.fst := fun hh => hpre (List.mem_cons_of_mem _ hh)
    have hkm : ¬ k = mk := by
      intro hh
      exact hpre (by rw [List.map_cons, hh]; exact List.mem_cons_self _ _)
    by_cases hk : k = "__db__"
    · subst hk
      rw [List.cons_append, loop_db]
      exact ih hpre' hmdb lnk post
    · rw [List.cons_append, loop_premarker_miss hk hkm]
      exact ih hpre' hmdb lnk post

/-- C5: on an initialized writable manager, listing a resolvable group whose
children in native order are the hard links `[a, b, c, d, e]` with
`marker = "b"` and `limit = 2` returns exactly the descriptors of `c` and `d`
in that order; with a non-positive limit the full remaining sequence
`[c, d, e]` is produced; and in general the loop skips children until the
marker name is seen, skips the marker entry itself, and resumes from the next
child with the accumulators untouched. -/
theorem getItems_pagination (s : DbState) (u rid : String) (g o₁ o₂ o₃ o₄ o₅ : ObjId)
    (hg : initGuard s = true) (hro : s.readonly = false)
    (hrid : s.db.rootUUIDAttr = some rid) (hne : ¬ u = rid)
    (hGr : s.db.hasGroups = true) (hres : getA s.db.groupsLinks u = some g)
    (hA : s.db.hasAddr = true)
    (hchild : s.file.children g =
      [("a", Link.hard o₁), ("b", Link.hard o₂), ("c", Link.hard o₃),
       ("d", Link.hard o₄), ("e", Link.hard o₅)]) :
    getItems s u none (some "b") 2 =
      .ok (some [itemHard s "c" o₃, itemHard s "d" o₄], statusReset s) ∧
    getItems s u none (some "b") (-1) =
      .ok (some [itemHard s "c" o₃, itemHard s "d" o₄, itemHard s "e" o₅], statusReset s) ∧
    (∀ (cf : Option String) (mk : String) (lnk : Link) (lim cnt : Int) (oc : Option String)
       (acc : List Item) (pre post : List (String × Link)),
       mk ∉ pre.map Prod.fst → ¬ mk = "__db__" →
       getItemsLoop s cf (some mk) lim (pre ++ (mk, lnk) :: post) false cnt oc acc =
         getItemsLoop s cf (some mk) lim post true cnt oc acc) := by
  refine ⟨?_, ?_, fun cf mk lnk lim cnt oc acc pre post h1 h2 =>
    loop_skip_until_marker pre h1 h2 lnk post⟩
  · rw [@getItems_resolved s u rid g none (some "b") 2 hg hro hrid hne hGr hres, hchild]
    simp only [Option.isNone_some]
    rw [loop_premarker_miss (by decide) (by decide), loop_marker_hit (by decide),
      loop_hard_emit (by decide) (show truthy (none : Option String) = false from rfl) (show (statusReset s).db.hasAddr = true from hA), if_neg (by decide),
      loop_hard_emit (by decide) (show truthy (none : Option String) = false from rfl) (show (statusReset s).db.hasAddr = true from hA), if_pos (by decide)]
    simp [itemHard, statusReset]
  · rw [@getItems_resolved s u rid g none (some "b") (-1) hg hro hrid hne hGr hres, hchild]
    simp only [Option.isNone_some]
    rw [loop_premarker_miss (by decide) (by decide), loop_marker_hit (by decide),
      loop_hard_emit (by decide) (show truthy (none : Option String) = false from rfl) (show (statusReset s).db.hasAddr = true from hA), if_neg (by decide),
      loop_hard_emit (by decide) (show truthy (none : Option String) = false from rfl) (show (statusReset s).db.hasAddr = true from hA), if_neg (by decide),
      loop_hard_emit (by decide) (show truthy (none : Option String) = false from rfl) (show (statusReset s).db.hasAddr = true from hA), if_neg (by decide), loop_nil]
    simp [itemHard, statusReset]

/-- Writable initialized manager whose group `7` has the
five hard-link children `[a, b, c, d, e]`, for the C5 witness. -/
def w5 : DbState :=
  { readonly := false
    file :=
      { rootId := 0, kindOf := fun _ => .group, addrOf := fun o => o,
        attrCount := fun _ => 0, nameOf := fun _ => "/g",
        children := fun g =>
          if g = 7 then
            [("a", Link.hard 1), ("b", Link.hard 2), ("c", Link.hard 3),
             ("d", Link.hard 4), ("e", Link.hard 5)]
          else [],
        byPath := fun _ => none, visitOrder := [] }
    dbRootExists := true
    db := { hasGroups := true, hasDatasets := true, hasDatatypes := true, hasAddr := true,
            rootUUIDAttr := some "root", groupsLinks := [("gu", 7)] }
    uuidGen := fun _ => "u", uuidCtr := 0 }

/-- C5 witness: the pagination theorem applied at the concrete manager `w5`. -/
theorem getItems_pagination_w :
    getItems w5 "gu" none (some "b") 2 =
      .ok (some [itemHard w5 "c" 3, itemHard w5 "d" 4], statusReset w5) :=
  (getItems_pagination w5 "gu" "root" 7 1 2 3 4 5 rfl rfl rfl (by decide) rfl rfl rfl
    rfl).1

/-- C9: on an initialized writable manager, listing a resolvable group with a
marker string that names none of its direct children returns the empty
sequence — an ordinary `.ok` with an empty item list, neither an error nor an
absent result — for every class filter and limit, because every child is
skipped while waiting for a marker that never appears. -/
theorem getItems_absent_marker_empty (s : DbState) (u rid mk : String) (g : ObjId)
    (cf : Option String) (lim : Int)
    (hg : initGuard s = true) (hro : s.readonly = false)
    (hrid : s.db.rootUUIDAttr = some rid) (hne : ¬ u = rid)
    (hGr : s.db.hasGroups = true) (hres : getA s.db.groupsLinks u = some g)
    (hm : mk ∉ (s.file.children g).map Prod.fst) :
    getItems s u cf (some mk) lim = .ok (some [], statusReset s) := by
  rw [@getItems_resolved s u rid g cf (some mk) lim hg hro hrid hne hGr hres]
  simp only [Option.isNone_some]
  rw [loop_marker_never (s.file.children g) hm]

/-- C9 witness: the theorem applied at `w5` with the absent marker `"zz"`. -/
theorem getItems_absent_marker_empty_w :
    getItems w5 "gu" none (some "zz") 3 = .ok (some [], statusReset w5) :=
  getItems_absent_marker_empty w5 "gu" "root" "zz" 7 none 3 rfl rfl rfl (by decide) rfl rfl
    (by decide)

/-! ### Claims C6 and C7 (defects in the getItems loop) -/

/-- Writable initialized manager whose group `1` has a single external-link
child. -/
def cx6 : DbState :=
  { readonly := false
    file :=
      { rootId := 0, kindOf := fun _ => .group, addrOf := fun o => o,
        attrCount := fun _ => 0, nameOf := fun _ => "/g",
        children := fun g => if g = 1 then [("x", Link.ext "/tgt" "other.h5")] else [],
        byPath := fun _ => none, visitOrder := [] }
    dbRootExists := true
    db := { hasGroups := true, hasDatasets := true, hasDatatypes := true, hasAddr := true,
            rootUUIDAttr := some "root", groupsLinks := [("gu", 1)] }
    uuidGen := fun _ => "u", uuidCtr := 0 }

/-- C6: evaluating `getItems` at the concrete manager `cx6`, whose listed
group has one external-link child — with no filter, and also with a filter
naming the external-link class — raises `NameError` instead of returning the
child's descriptor: the `ExternalLink` branch reads the never-assigned name
`typeFilter`, so the listing aborts rather than completing. -/
theorem getItems_external_link_name_error :
    getItems cx6 "gu" none none 0 = .error .nameError ∧
    getItems cx6 "gu" (some "ExternalLink") none 0 = .error .nameError :=
  ⟨rfl, rfl⟩

/-- Writable initialized manager whose group `1` starts with a child of an
unexpected link class. -/
def cx7 : DbState :=
  { readonly := false
    file :=
      { rootId := 0, kindOf := fun _ => .group, addrOf := fun o => o,
        attrCount := fun _ => 0, nameOf := fun _ => "/g",
        children := fun g => if g = 1 then [("w", Link.other), ("y", Link.hard 2)] else [],
        byPath := fun _ => none, visitOrder := [] }
    dbRootExists := true
    db := { hasGroups := true, hasDatasets := true, hasDatatypes := true, hasAddr := true,
            rootUUIDAttr := some "root", groupsLinks := [("gu", 1)] }
    uuidGen := fun _ => "u", uuidCtr := 0 }

/-- Like `cx7`, but a hard-link child precedes the unexpected-class child. -/
def cx7b : DbState :=
  { readonly := false
    file :=
      { rootId := 0, kindOf := fun _ => .group, addrOf := fun o => o,
        attrCount := fun _ => 0, nameOf := fun _ => "/g",
        children := fun g =>
          if g = 1 then [("y", Link.hard 2), ("w", Link.other), ("z", Link.hard 3)] else [],
        byPath := fun _ => none, visitOrder := [] }
    dbRootExists := true
    db := { hasGroups := true, hasDatasets := true, hasDatatypes := true, hasAddr := true,
            rootUUIDAttr := some "root", groupsLinks := [("gu", 1)] }
    uuidGen := fun _ => "u", uuidCtr := 0 }

/-- C7: at the concrete manager `cx7`, whose listed group's first child has an
unexpected link classification, `getItems` raises `NameError` and aborts the
listing instead of skipping the entry: the log call in the unexpected-class
branch reads `objClass`, which is only ever assigned inside the hard-link
branch.  When a hard-link child happens to come first (`cx7b`), the entry is
skipped and the remaining children are still enumerated — but no
internal-error status is reported. -/
theorem getItems_unexpected_link_name_error :
    getItems cx7 "gu" none none 0 = .error .nameError ∧
    (getItems cx7b "gu" none none 0).toOption.map
        (fun q => Option.map (List.map Item.name) q.1) = some (some ["y", "z"]) ∧
    (getItems cx7b "gu" none none 0).toOption.map (fun q => q.2.httpStatus) = some 200 :=
  ⟨rfl, rfl, rfl⟩

/-! ### Claim C3 (cascading group deletion) -/

theorem statusReset_file (s : DbState) : (statusReset s).file = s.file := rfl

theorem statusReset_db (s : DbState) : (statusReset s).db = s.db := rfl

theorem statusReset_readonly (s : DbState) : (statusReset s).readonly = s.readonly := rfl

theorem statusReset_dbRootExists (s : DbState) :
    (statusReset s).dbRootExists = s.dbRootExists := rfl

theorem statusReset_idem (s : DbState) : statusReset (statusReset s) = statusReset s := rfl

theorem scrub_subset {l : List (String × Link)} {tgt : ObjId} {nl : String × Link}
    (h : nl ∈ scrub l tgt) : nl ∈ l :=
  (List.mem_filter.1 h).1

theorem scrub_no_hard {l : List (String × Link)} {tgt : ObjId} {nl : String × Link}
    (h : nl ∈ scrub l tgt) : ¬ nl.2 = Link.hard tgt := by
  have h2 := (List.mem_filter.1 h).2
  intro hh
  rw [hh] at h2
  simp at h2

theorem unlinkObject_db (s : DbState) (p tgt : ObjId) : (unlinkObject s p tgt).db = s.db := rfl

theorem unlinkObject_addrOf (s : DbState) (p tgt : ObjId) :
    (unlinkObject s p tgt).file.addrOf = s.file.addrOf := rfl

theorem unlinkObject_readonly (s : DbState) (p tgt : ObjId) :
    (unlinkObject s p tgt).readonly = s.readonly := rfl

theorem unlinkObject_children_sub {s : DbState} {p tgt g : ObjId} {nl : String × Link}
    (h : nl ∈ (unlinkObject s p tgt).file.children g) : nl ∈ s.file.children g := by
  simp only [unlinkObject] at h
  split at h
  · rename_i hg
    rw [hg]
    exact scrub_subset h
  · exact h

theorem unlinkObject_children_self {s : DbState} {p tgt : ObjId} {nl : String × Link}
    (h : nl ∈ (unlinkObject s p tgt).file.children p) : ¬ nl.2 = Link.hard tgt := by
  simp only [unlinkObject, if_true] at h
  exact scrub_no_hard h

theorem unlinkFromAll_fields : ∀ (e : List (String × ObjId)) (s : DbState) (t : ObjId),
    (unlinkFromAll s e t).db = s.db ∧ (unlinkFromAll s e t).readonly = s.readonly ∧
    (unlinkFromAll s e t).dbRootExists = s.dbRootExists ∧
    (unlinkFromAll s e t).file.rootId = s.file.rootId ∧
    (unlinkFromAll s e t).file.addrOf = s.file.addrOf ∧
    (unlinkFromAll s e t).file.kindOf = s.file.kindOf ∧
    (unlinkFromAll s e t).file.byPath = s.file.byPath := by
  intro e
  induction e with
  | nil =>
    intro s t
    exact ⟨rfl, rfl, rfl, rfl, rfl, rfl, rfl⟩
  | cons q rest ih =>
    intro s t
    obtain ⟨v, g⟩ := q
    exact ih (unlinkObject s g t) t

theorem unlinkFromAll_db (e : List (String × ObjId)) (s : DbState) (t : ObjId) :
    (unlinkFromAll s e t).db = s.db :=
  (unlinkFromAll_fields e s t).1

theorem unlinkFromAll_readonly (e : List (String × ObjId)) (s : DbState) (t : ObjId) :
    (unlinkFromAll s e t).readonly = s.readonly :=
  (unlinkFromAll_fields e s t).2.1

theorem unlinkFromAll_dbRootExists (e : List (String × ObjId)) (s : DbState) (t : ObjId) :
    (unlinkFromAll s e t).dbRootExists = s.dbRootExists :=
  (unlinkFromAll_fields e s t).2.2.1

theorem unlinkFromAll_addrOf (e : List (String × ObjId)) (s : DbState) (t : ObjId) :
    (unlinkFromAll s e t).file.addrOf = s.file.addrOf :=
  (unlinkFromAll_fields e s t).2.2.2.2.1

theorem unlinkFromAll_children_sub : ∀ (e : List (String × ObjId)) {s : DbState} {t g : ObjId}
    {nl : String × Link},
    nl ∈ (unlinkFromAll s e t).file.children g → nl ∈ s.file.children g := by
  intro e
  induction e with
  | nil =>
    intro s t g nl h
    exact h
  | cons q rest ih =>
    intro s t g nl h
    obtain ⟨v, g₀⟩ := q
    exact unlinkObject_children_sub (ih h)

theorem unlinkFromAll_scrubbed : ∀ (e : List (String × ObjId)) {s : DbState} {t : ObjId}
    {v : String} {g : ObjId}, (v, g) ∈ e → ∀ {nl : String × Link},
    nl ∈ (unlinkFromAll s e t).file.children g → ¬ nl.2 = Link.hard t := by
  intro e
  induction e with
  | nil =>
    intro s t v g hmem
    cases hmem
  | cons q rest ih =>
    intro s t v g hmem nl h
    obtain ⟨v₀, g₀⟩ := q
    rcases List.mem_cons.1 hmem with heq | hmem'
    · injection heq with h1 h2
      subst h2
      exact unlinkObject_children_self (unlinkFromAll_children_sub rest h)
    · exact ih hmem' h

/-- The state left behind by the success path of `deleteGroup` (status reset,
unlink from the root, unlink from every registered group, delete the
address-map attribute, delete the `{groups}` entry). -/
def deleteGroupResult (s : DbState) (u : String) (g : ObjId) : DbState :=
  let t := statusReset s
  let s₂ := unlinkObject t t.file.rootId g
  let s₃ := unlinkFromAll s₂ s₂.db.groupsLinks g
  let s₄ := {s₃ with db := {s₃.db with
    addrAttrs := delA s₃.db.addrAttrs (toString (s₃.file.addrOf g))}}
  {s₄ with db := {s₄.db with groupsLinks := delA s₄.db.groupsLinks u}}

theorem deleteGroup_success_eq (s : DbState) (u rid : String) (g : ObjId)
    (hg : initGuard s = true) (hro : s.readonly = false)
    (hrid : s.db.rootUUIDAttr = some rid) (hne : ¬ u = rid)
    (hGr : s.db.hasGroups = true) (hres : getA s.db.groupsLinks u = some g)
    (hA : s.db.hasAddr = true)
    (haddr : (getA s.db.addrAttrs (toString (s.file.addrOf g))).isSome = true) :
    deleteGroup s u = .ok (none, deleteGroupResult s u g) := by
  obtain ⟨au, hau⟩ := Option.isSome_iff_exists.1 haddr
  simp only [deleteGroup, deleteGroupResult, initFile_guarded hg,
    @getGroupByUuid_writable (statusReset s) u rid g hg hro hrid hne hGr hres,
    statusReset_readonly, statusReset_db, statusReset_file, statusReset_idem,
    unlinkObject_db, unlinkFromAll_db, unlinkFromAll_addrOf, unlinkObject_addrOf,
    hro, hrid, hne, hGr, hA, hres, hau]
  simp

theorem unlinkObject_dbRootExists (s : DbState) (p tgt : ObjId) :
    (unlinkObject s p tgt).dbRootExists = s.dbRootExists := rfl

/-- C3: deleting a resolvable non-root group `g` (UUID `u`) on an initialized
writable manager succeeds (returning `None`), removes every hard link whose
target is `g` from the root group and from every group registered in
`{groups}` (self-references included, since `g` itself is registered),
removes `g`'s address-map entry and its `{groups}` entry, and a subsequent
`getGroupByUuid` on `u` reports 404 / "Resource not found". -/
theorem deleteGroup_cascade (s : DbState) (u rid : String) (g : ObjId)
    (hg : initGuard s = true) (hro : s.readonly = false)
    (hrid : s.db.rootUUIDAttr = some rid) (hne : ¬ u = rid)
    (hGr : s.db.hasGroups = true) (hres : getA s.db.groupsLinks u = some g)
    (hA : s.db.hasAddr = true)
    (haddr : (getA s.db.addrAttrs (toString (s.file.addrOf g))).isSome = true) :
    deleteGroup s u = .ok (none, deleteGroupResult s u g) ∧
    (∀ nl ∈ (deleteGroupResult s u g).file.children s.file.rootId, ¬ nl.2 = Link.hard g) ∧
    (∀ v h, (v, h) ∈ s.db.groupsLinks →
       ∀ nl ∈ (deleteGroupResult s u g).file.children h, ¬ nl.2 = Link.hard g) ∧
    getA (deleteGroupResult s u g).db.addrAttrs (toString (s.file.addrOf g)) = none ∧
    getA (deleteGroupResult s u g).db.groupsLinks u = none ∧
    getGroupByUuid (deleteGroupResult s u g) u =
      .ok (none, { deleteGroupResult s u g with
                   httpStatus := 404
                   httpMessage := some "Resource not found" }) := by
  have hchild : (deleteGroupResult s u g).file.children =
      (unlinkFromAll (unlinkObject (statusReset s) s.file.rootId g) s.db.groupsLinks
        g).file.children := rfl
  have hRgl : (deleteGroupResult s u g).db.groupsLinks = delA s.db.groupsLinks u := by
    have h0 : (deleteGroupResult s u g).db.groupsLinks =
        delA (unlinkFromAll (unlinkObject (statusReset s) s.file.rootId g) s.db.groupsLinks
          g).db.groupsLinks u := rfl
    rw [h0, unlinkFromAll_db, unlinkObject_db, statusReset_db]
  have hres₅ : getA (deleteGroupResult s u g).db.groupsLinks u = none := by
    rw [hRgl]
    exact getA_delA_self _ _
  have hRro : (deleteGroupResult s u g).readonly = false := by
    have h0 : (deleteGroupResult s u g).readonly =
        (unlinkFromAll (unlinkObject (statusReset s) s.file.rootId g) s.db.groupsLinks
          g).readonly := rfl
    rw [h0, unlinkFromAll_readonly, unlinkObject_readonly, statusReset_readonly, hro]
  have hRrid : (deleteGroupResult s u g).db.rootUUIDAttr = some rid := by
    have h0 : (deleteGroupResult s u g).db.rootUUIDAttr =
        (unlinkFromAll (unlinkObject (statusReset s) s.file.rootId g) s.db.groupsLinks
          g).db.rootUUIDAttr := rfl
    rw [h0, unlinkFromAll_db, unlinkObject_db, statusReset_db, hrid]
  have hRGr : (deleteGroupResult s u g).db.hasGroups = true := by
    have h0 : (deleteGroupResult s u g).db.hasGroups =
        (unlinkFromAll (unlinkObject (statusReset s) s.file.rootId g) s.db.groupsLinks
          g).db.hasGroups := rfl
    rw [h0, unlinkFromAll_db, unlinkObject_db, statusReset_db, hGr]
  have hsdbe : s.dbRootExists = true := by
    unfold initGuard at hg
    rw [hro] at hg
    simpa using hg
  have hRg : initGuard (deleteGroupResult s u g) = true := by
    have h0 : (deleteGroupResult s u g).dbRootExists =
        (unlinkFromAll (unlinkObject (statusReset s) s.file.rootId g) s.db.groupsLinks
          g).dbRootExists := rfl
    unfold initGuard
    rw [hRro]
    simp only [Bool.false_eq_true, if_false]
    rw [h0, unlinkFromAll_dbRootExists, unlinkObject_dbRootExists, statusReset_dbRootExists,
      hsdbe]
  refine ⟨deleteGroup_success_eq s u rid g hg hro hrid hne hGr hres hA haddr,
    ?_, ?_, ?_, hres₅, ?_⟩
  · intro nl hnl
    rw [hchild] at hnl
    exact unlinkObject_children_self (unlinkFromAll_children_sub s.db.groupsLinks hnl)
  · intro v h hmem nl hnl
    rw [hchild] at hnl
    exact unlinkFromAll_scrubbed s.db.groupsLinks hmem hnl
  · have h0 : (deleteGroupResult s u g).db.addrAttrs =
        delA (unlinkFromAll (unlinkObject (statusReset s) s.file.rootId g) s.db.groupsLinks
            g).db.addrAttrs
          (toString ((unlinkFromAll (unlinkObject (statusReset s) s.file.rootId g)
            s.db.groupsLinks g).file.addrOf g)) := rfl
    rw [h0, unlinkFromAll_db, unlinkObject_db, statusReset_db, unlinkFromAll_addrOf,
      unlinkObject_addrOf, statusReset_file]
    exact getA_delA_self _ _
  · exact getGroupByUuid_writable_miss hRg hRro hRrid hne hRGr hres₅

/-- Writable initialized manager where group `1` (UUID `"ua"`) is linked under
the root, under group `2`, and under itself, for the C3 witness. -/
def w3 : DbState :=
  { readonly := false
    file :=
      { rootId := 0, kindOf := fun _ => .group, addrOf := fun o => o,
        attrCount := fun _ => 0, nameOf := fun _ => "/g",
        children := fun g =>
          if g = 0 then [("A", Link.hard 1), ("B", Link.hard 2)]
          else if g = 2 then [("A2", Link.hard 1), ("keep", Link.hard 2)]
          else if g = 1 then [("self", Link.hard 1)]
          else [],
        byPath := fun _ => none, visitOrder := [] }
    dbRootExists := true
    db := { hasGroups := true, hasDatasets := true, hasDatatypes := true, hasAddr := true,
            rootUUIDAttr := some "root", groupsLinks := [("ua", 1), ("ub", 2)],
            addrAttrs := [("1", "ua"), ("2", "ub")] }
    uuidGen := fun _ => "u", uuidCtr := 0 }

/-- C3 witness: the cascade theorem applied at the concrete manager `w3`,
deleting group `1` through its UUID `"ua"`. -/
theorem deleteGroup_cascade_w :
    deleteGroup w3 "ua" = .ok (none, deleteGroupResult w3 "ua" 1) :=
  (deleteGroup_cascade w3 "ua" "root" 1 rfl rfl rfl (by decide) rfl rfl rfl rfl).1
